import Mathlib

/-!
# Verification of the ImageCutter fragmentation engine

Shallow embedding of the repository's image-processing core
(`src/image_processor.py`, `src/animated_processor.py`, `src/config.py`,
and the grid keyboard of `src/bot.py`) together with proofs about the
claims of its specification.

Modelling conventions:
* A raster image (PIL `Image`) is a structure `Img` carrying its size and a
  total pixel function; all images are RGBA (the code converts to RGBA at
  every entry point, so mode conversions are identities in the model).
* Python `float` arithmetic in `calculate_grid` and the fit functions is
  modelled with exact rationals `ℚ` (the literal `0.1` becomes `1/10`);
  `int(...)` on a nonnegative float becomes `Int.floor` + `toNat`.
* PIL `Image.resize` (LANCZOS resampling) is an external library routine;
  theorems quantify over an arbitrary resize function `rz` that returns an
  image of the requested size, and concrete witnesses instantiate it with a
  nearest-neighbour resizer.
* PIL `Image.paste(im, box, mask)` with an RGBA mask blends each band `b` as
  `MULDIV255(dst_b, 255-a) + MULDIV255(src_b, a)` where `a` is the source
  alpha and `MULDIV255(x) = ((t >> 8) + t) >> 8` with `t = x + 128`
  (Pillow's `Paste.c`); this is modelled bit-exactly by `muldiv255`.
* Python division by zero raises; definitions suffixed `E` return `Except`
  and make every division-by-zero site of the source explicit.
-/

/-- One RGBA pixel; channel values are natural numbers (0–255 in real
images, which is imposed as a hypothesis where a proof needs it). -/
structure RGBA where
  r : ℕ
  g : ℕ
  b : ℕ
  a : ℕ
deriving DecidableEq, Repr

/-- The fully transparent pixel `(0, 0, 0, 0)` used by `Image.new`. -/
def clear : RGBA := ⟨0, 0, 0, 0⟩

/-- An RGBA raster: width, height, and a total pixel function.  Values of
`px` outside `[0, w) × [0, h)` are irrelevant; reads go through `Img.get`
which pads with `clear`, matching PIL's out-of-bounds crop fill. -/
structure Img where
  w : ℕ
  h : ℕ
  px : ℕ → ℕ → RGBA

/-- Guarded pixel read: `clear` outside the image domain. -/
def Img.get (i : Img) (x y : ℕ) : RGBA :=
  if x < i.w ∧ y < i.h then i.px x y else clear

/-- `Image.new('RGBA', (w, h), (0, 0, 0, 0))`: fresh fully transparent canvas. -/
def Img.new (w h : ℕ) : Img := ⟨w, h, fun _ _ => clear⟩

/-- `image.crop((left, top, right, bottom))`: size `(right-left, bottom-top)`,
pixel `(x, y)` read from the source at `(left+x, top+y)` (zero fill outside). -/
def Img.crop (i : Img) (left top right bottom : ℕ) : Img :=
  ⟨right - left, bottom - top, fun x y => i.get (left + x) (top + y)⟩

/-- Pillow's `MULDIV255` rounding macro: `t = x + 128; ((t >> 8) + t) >> 8`,
an exact computation of `round(x / 255)` for in-range `x`. -/
def muldiv255 (x : ℕ) : ℕ :=
  let t := x + 128
  (t / 256 + t) / 256

/-- One band of Pillow's masked paste blend:
`MULDIV255(d * (255 - m)) + MULDIV255(s * m)` for mask value `m`. -/
def blendChan (d s m : ℕ) : ℕ :=
  muldiv255 (d * (255 - m)) + muldiv255 (s * m)

/-- Masked-paste blend of one destination and one source pixel, the mask
being the source's own alpha band (the code always passes the pasted image
itself as the mask). -/
def blendPx (d s : RGBA) : RGBA :=
  ⟨blendChan d.r s.r s.a, blendChan d.g s.g s.a, blendChan d.b s.b s.a,
    blendChan d.a s.a s.a⟩

/-- `dst.paste(src, (x0, y0), src)`: inside the pasted rectangle each pixel
is the alpha blend of destination and source; outside it the destination is
unchanged.  The destination's size is kept. -/
def Img.pasteMask (dst src : Img) (x0 y0 : ℕ) : Img :=
  ⟨dst.w, dst.h, fun x y =>
    if x0 ≤ x ∧ x < x0 + src.w ∧ y0 ≤ y ∧ y < y0 + src.h then
      blendPx (dst.px x y) (src.px (x - x0) (y - y0))
    else dst.px x y⟩

/-- `dst.paste(src, (x0, y0))` without a mask: plain region copy. -/
def Img.pastePlain (dst src : Img) (x0 y0 : ℕ) : Img :=
  ⟨dst.w, dst.h, fun x y =>
    if x0 ≤ x ∧ x < x0 + src.w ∧ y0 ≤ y ∧ y < y0 + src.h then
      src.px (x - x0) (y - y0)
    else dst.px x y⟩

/-- Extensional image equality: same size and same pixels on the domain. -/
def ImgEq (a b : Img) : Prop :=
  a.w = b.w ∧ a.h = b.h ∧ ∀ x, x < a.w → ∀ y, y < a.h → a.px x y = b.px x y

instance (a b : Img) : Decidable (ImgEq a b) := by
  unfold ImgEq; infer_instance

/-- A concrete executable stand-in for PIL's resize used by witnesses:
nearest-neighbour sampling to the requested size. -/
def nnResize (i : Img) (nw nh : ℕ) : Img :=
  ⟨nw, nh, fun x y => i.get (x * i.w / nw) (y * i.h / nh)⟩

/-- `config.EMOJI_SIZE`: emoji tile side in pixels. -/
def EMOJI_SIZE : ℕ := 100

/-- `config.MIN_FRAGMENT_SIZE`: minimum source size per fragment before scaling. -/
def MIN_FRAGMENT_SIZE : ℕ := 100

/-- Per-part score of a grid candidate `(c, r)` in `calculate_grid`:
`part_width = w / c`, `part_height = h / r`,
`ratio_diff = |part_width / part_height - 1|`,
`coverage = (c * r) / (max_cols * max_rows)`,
`score = ratio_diff - coverage * 0.1`. -/
def gridScore (w h mc mr : ℕ) (cand : ℕ × ℕ) : ℚ :=
  let part_width : ℚ := (w : ℚ) / (cand.1 : ℚ)
  let part_height : ℚ := (h : ℚ) / (cand.2 : ℚ)
  let ratio_diff : ℚ := |part_width / part_height - 1|
  let coverage : ℚ := ((cand.1 : ℚ) * (cand.2 : ℚ)) / ((mc : ℚ) * (mr : ℚ))
  ratio_diff - coverage * (1 / 10)

/-- The minimum-size filter of `calculate_grid`: a candidate is skipped when
`part_width < MIN_FRAGMENT_SIZE or part_height < MIN_FRAGMENT_SIZE`. -/
def gridSurvives (w h : ℕ) (cand : ℕ × ℕ) : Bool :=
  !(decide ((w : ℚ) / (cand.1 : ℚ) < (MIN_FRAGMENT_SIZE : ℚ)) ||
    decide ((h : ℚ) / (cand.2 : ℚ) < (MIN_FRAGMENT_SIZE : ℚ)))

/-- The candidate enumeration of `calculate_grid`:
`for cols in range(1, max_cols + 1): for rows in range(1, max_rows + 1)`,
i.e. ascending columns outer, ascending rows inner. -/
def gridCandidates (mc mr : ℕ) : List (ℕ × ℕ) :=
  (List.range mc).flatMap fun i => (List.range mr).map fun j => (i + 1, j + 1)

/-- One iteration of the candidate loop of `calculate_grid`: skip a
non-surviving candidate, otherwise replace the current best exactly when
`score < best_ratio_diff` (`none` plays the role of `float('inf')`). -/
def gridStep (w h mc mr : ℕ) (acc : (ℕ × ℕ) × Option ℚ) (cand : ℕ × ℕ) :
    (ℕ × ℕ) × Option ℚ :=
  if gridSurvives w h cand then
    match acc.2 with
    | none => (cand, some (gridScore w h mc mr cand))
    | some s =>
      if gridScore w h mc mr cand < s then (cand, some (gridScore w h mc mr cand))
      else acc
  else acc

/-- `image_processor.calculate_grid`.  The `if max_cols == 0 or max_rows == 0`
guard of the source is kept although it is dead (`max(1, ...) ≥ 1`). -/
def calculate_grid (image_width image_height : ℕ) : ℕ × ℕ :=
  let max_cols := max 1 (image_width / MIN_FRAGMENT_SIZE)
  let max_rows := max 1 (image_height / MIN_FRAGMENT_SIZE)
  if max_cols = 0 ∨ max_rows = 0 then (1, 1)
  else
    ((gridCandidates max_cols max_rows).foldl
      (gridStep image_width image_height max_cols max_rows) ((1, 1), none)).1

/-- The surviving candidates of `calculate_grid` in enumeration order. -/
def gridSurvivors (w h : ℕ) : List (ℕ × ℕ) :=
  (gridCandidates (max 1 (w / MIN_FRAGMENT_SIZE)) (max 1 (h / MIN_FRAGMENT_SIZE))).filter
    (gridSurvives w h)

/-- The scale factor computed by both fit functions:
`min(grid_width / img_width, grid_height / img_height)` with
`grid_width = cols * EMOJI_SIZE`, `grid_height = rows * EMOJI_SIZE`. -/
def scaleQ (iw ih cols rows : ℕ) : ℚ :=
  min (((cols * EMOJI_SIZE : ℕ) : ℚ) / (iw : ℚ)) (((rows * EMOJI_SIZE : ℕ) : ℚ) / (ih : ℚ))

/-- `new_width = int(img_width * scale)` (truncation of a nonnegative float). -/
def scaledW (iw ih cols rows : ℕ) : ℕ :=
  ⌊(iw : ℚ) * scaleQ iw ih cols rows⌋.toNat

/-- `new_height = int(img_height * scale)`. -/
def scaledH (iw ih cols rows : ℕ) : ℕ :=
  ⌊(ih : ℚ) * scaleQ iw ih cols rows⌋.toNat

/-- `image_processor.fit_image_to_grid`, parameterised by the external
resize routine `rz` (PIL LANCZOS resize).  When `scale < 1.0` the image is
resized to `(new_width, new_height)`; otherwise the original is used and
`new_width, new_height` are reset to the image size.  The (RGBA-converted)
result is pasted, with itself as mask, centred on a fresh transparent canvas
of the exact grid size. -/
def fit_image_to_grid (rz : Img → ℕ → ℕ → Img) (image : Img)
    (grid_cols grid_rows : ℕ) : Img :=
  let grid_width := grid_cols * EMOJI_SIZE
  let grid_height := grid_rows * EMOJI_SIZE
  let scale := scaleQ image.w image.h grid_cols grid_rows
  let resized := if scale < 1 then rz image (scaledW image.w image.h grid_cols grid_rows)
    (scaledH image.w image.h grid_cols grid_rows) else image
  let new_width := if scale < 1 then scaledW image.w image.h grid_cols grid_rows else image.w
  let new_height := if scale < 1 then scaledH image.w image.h grid_cols grid_rows else image.h
  let canvas := Img.new grid_width grid_height
  canvas.pasteMask resized ((grid_width - new_width) / 2) ((grid_height - new_height) / 2)

/-- `animated_processor.fit_to_grid`: identical geometry, but the resize is
performed unconditionally (`image = image.resize((nw, nh), LANCZOS)`), with
no `scale < 1.0` guard. -/
def fit_to_grid (rz : Img → ℕ → ℕ → Img) (image : Img) (cols rows : ℕ) : Img :=
  let gw := cols * EMOJI_SIZE
  let gh := rows * EMOJI_SIZE
  let nw := scaledW image.w image.h cols rows
  let nh := scaledH image.w image.h cols rows
  let canvas := Img.new gw gh
  canvas.pasteMask (rz image nw nh) ((gw - nw) / 2) ((gh - nh) / 2)

/-- The tiling loop shared verbatim by `animated_processor.split` and the
fragment loop of `image_processor.split_image`: row-major crop of
`EMOJI_SIZE × EMOJI_SIZE` rectangles, rows outer, columns inner. -/
def split (image : Img) (cols rows : ℕ) : List Img :=
  (List.range rows).flatMap fun y =>
    (List.range cols).map fun x =>
      image.crop (x * EMOJI_SIZE) (y * EMOJI_SIZE)
        (x * EMOJI_SIZE + EMOJI_SIZE) (y * EMOJI_SIZE + EMOJI_SIZE)

/-- `image_processor.split_image`: when either grid dimension is `None` the
grid is recomputed from the image size; unless `prefitted` the image is
first passed through `fit_image_to_grid`; then the crop loop (`split`) runs.
(The unused `target_width`/`target_height` locals of the source are omitted.) -/
def split_image (rz : Img → ℕ → ℕ → Img) (image : Img)
    (cols? rows? : Option ℕ) (prefitted : Bool) : List Img :=
  let cr : ℕ × ℕ :=
    match cols?, rows? with
    | some c, some r => (c, r)
    | _, _ => calculate_grid image.w image.h
  let centered := if prefitted then image else fit_image_to_grid rz image cr.1 cr.2
  split centered cr.1 cr.2

/-- `image_processor.scale_fragment`: RGBA conversion (identity in the
model) followed by a LANCZOS resize to `EMOJI_SIZE × EMOJI_SIZE`. -/
def scale_fragment (rz : Img → ℕ → ℕ → Img) (fragment : Img) : Img :=
  rz fragment EMOJI_SIZE EMOJI_SIZE

/-- `image_processor.process_image` with Python's `raise ValueError` made
explicit as `Except.error`.  The thread pool that scales fragments collects
results by index (`results[index] = future.result()`), so it is a plain
ordered `map`.  `Image.open` succeeding and the RGBA conversion are outside
the model (the argument is already the decoded image). -/
def process_imageE (rz : Img → ℕ → ℕ → Img) (image : Img)
    (grid_cols grid_rows : Option ℕ) : Except String (List Img) :=
  if image.w < MIN_FRAGMENT_SIZE ∨ image.h < MIN_FRAGMENT_SIZE then
    .error "ValueError: image too small"
  else
    let fragments :=
      match grid_cols, grid_rows with
      | some c, some r =>
        split_image rz (fit_image_to_grid rz image c r) (some c) (some r) true
      | _, _ => split_image rz image none none false
    .ok (fragments.map (scale_fragment rz))

/-- `calculate_grid` with the division-by-zero sites of the source made
explicit: the only fallible division is `aspect_ratio = image_width /
image_height` (the loop divides by `cols ≥ 1`, `rows ≥ 1`, by
`part_height = h / rows` which is nonzero once `h ≠ 0`, and by
`max_cols * max_rows ≥ 1`). -/
def calculate_gridE (image_width image_height : ℕ) : Except String (ℕ × ℕ) :=
  let max_cols := max 1 (image_width / MIN_FRAGMENT_SIZE)
  let max_rows := max 1 (image_height / MIN_FRAGMENT_SIZE)
  if max_cols = 0 ∨ max_rows = 0 then .ok (1, 1)
  else if image_height = 0 then .error "ZeroDivisionError"
  else .ok (calculate_grid image_width image_height)

/-- `fit_image_to_grid` with its division-by-zero sites explicit
(`scale_x = grid_width / img_width`, `scale_y = grid_height / img_height`). -/
def fit_image_to_gridE (rz : Img → ℕ → ℕ → Img) (image : Img)
    (grid_cols grid_rows : ℕ) : Except String Img :=
  if image.w = 0 ∨ image.h = 0 then .error "ZeroDivisionError"
  else .ok (fit_image_to_grid rz image grid_cols grid_rows)

/-- `fit_to_grid` with its division-by-zero sites explicit
(`scale = min(gw / iw, gh / ih)`). -/
def fit_to_gridE (rz : Img → ℕ → ℕ → Img) (image : Img)
    (cols rows : ℕ) : Except String Img :=
  if image.w = 0 ∨ image.h = 0 then .error "ZeroDivisionError"
  else .ok (fit_to_grid rz image cols rows)

/-- `animated_processor.MAX_FRAMES`. -/
def MAX_FRAMES : ℕ := 60

/-- The filesystem effects of one `process_animated` invocation: paths
created and paths removed inside its `tempfile.mkdtemp()` scratch
directory (modelled as the fixed name `tmp`). -/
structure FS where
  dirs : List String
  files : List String
  removed : List String
deriving Repr

/-- `animated_processor.process_animated`, with externals modelled:
`extract_frames` (ffmpeg) writes one zero-padded PNG per decoded frame, so
the sorted listing is in decoding order and is given directly as the input
list `frames`; `encode_webm` (ffmpeg) consumes the ordered PNG sequence of
`part_i` and is modelled as the identity on that ordered tile list, so the
result value is, per tile index, the ordered list of that tile's frames.
The returned `FS` records every path the invocation creates inside its
scratch directory and every path it removes: the source contains no removal
call, so `removed` is always empty. -/
def process_animated_run (rz : Img → ℕ → ℕ → Img) (frames : List Img)
    (cols rows : ℕ) : Except String (List (List Img)) × FS :=
  let temp_dir := "tmp"
  let frames_dir := "tmp/frames"
  let frame_files := (List.range frames.length).map fun i => s!"tmp/frames/{i}.png"
  if frames.length = 0 then
    (.error "ValueError: could not extract frames",
      ⟨[temp_dir, frames_dir], frame_files, []⟩)
  else
    let kept := frames.take MAX_FRAMES
    let prepared := kept.map fun f => fit_to_grid rz f cols rows
    let fragments_per_frame := prepared.map fun f => split f cols rows
    let total_parts := cols * rows
    let groups := (List.range total_parts).map fun i =>
      fragments_per_frame.map fun fr => fr.getD i (Img.new 0 0)
    let part_dirs := (List.range total_parts).map fun i => s!"tmp/part_{i}"
    let tile_files := (List.range total_parts).flatMap fun i =>
      (List.range kept.length).map fun j => s!"tmp/part_{i}/{j}.png"
    let out_files := (List.range total_parts).map fun i => s!"tmp/{i}.webm"
    (.ok groups,
      ⟨temp_dir :: frames_dir :: part_dirs, frame_files ++ tile_files ++ out_files, []⟩)

/-- The `(c, r)` grid buttons enumerated by `bot.build_grid_keyboard`
(`all_btns`): `c in range(2, max_cols + 1)`, `r in range(2, max_rows + 1)`,
keeping only `4 <= c * r <= 48`, where `max_cols = min(width // 100, 15)`
and `max_rows = min(height // 100, 15)`. -/
def build_grid_pairs (width height : ℕ) : List (ℕ × ℕ) :=
  let max_cols := min (width / MIN_FRAGMENT_SIZE) 15
  let max_rows := min (height / MIN_FRAGMENT_SIZE) 15
  (((List.range' 2 (max_cols + 1 - 2)).flatMap fun c =>
    (List.range' 2 (max_rows + 1 - 2)).map fun r => (c, r)).filter
    fun p => decide (4 ≤ p.1 * p.2) && decide (p.1 * p.2 ≤ 48))

/-- The tile grouping of the animated pipeline, by itself: the tiles
destined for tile index `i`, across all (kept) frames, in frame order. -/
def tileGroup (rz : Img → ℕ → ℕ → Img) (frames : List Img)
    (cols rows : ℕ) (i : ℕ) : List Img :=
  (frames.take MAX_FRAMES).map fun f =>
    (split (fit_to_grid rz f cols rows) cols rows).getD i (Img.new 0 0)

/-- Reassembly of a tile list (the round-trip direction of the partition
claim): paste every tile, in linear index order, at its rectangle
`[(i % cols) * EMOJI_SIZE, (i / cols) * EMOJI_SIZE)` on a fresh canvas. -/
def reassemble (tiles : List Img) (cols rows : ℕ) : Img :=
  (List.range (rows * cols)).foldl
    (fun acc i =>
      acc.pastePlain (tiles.getD i (Img.new 0 0))
        ((i % cols) * EMOJI_SIZE) ((i / cols) * EMOJI_SIZE))
    (Img.new (cols * EMOJI_SIZE) (rows * EMOJI_SIZE))

/-- A concrete 1×1 fully opaque frame used by witnesses. -/
def onePix : Img := ⟨1, 1, fun _ _ => ⟨0, 0, 0, 255⟩⟩

/-- A concrete grid-sized (1×1 grid) canvas whose pixels are half
transparent (`alpha = 128`), used to refute pixel-exact idempotence. -/
def halfAlphaImg : Img := ⟨100, 100, fun _ _ => ⟨255, 0, 0, 128⟩⟩

/-- A concrete 50×50 fully opaque frame, smaller than any grid, used to
exhibit upscaling on the animated fit path. -/
def solid50 : Img := ⟨50, 50, fun _ _ => ⟨1, 2, 3, 255⟩⟩

/-! ### Grid planner: from the best-so-far fold to `List.argmin`

`calculate_grid`'s loop keeps the first candidate whose score is strictly
smaller than the best so far, starting from `float('inf')`; this is exactly
the fold underlying `List.argmin`, which the following lemmas establish. -/

theorem argAux_from_some {α β : Type*} [LinearOrder β] (f : α → β) :
    ∀ (l : List α) (b : α),
      ∃ m, l.foldl (List.argAux fun x y => f x < f y) (some b) = some m := by
  intro l b
  cases hf : l.foldl (List.argAux fun x y => f x < f y) (some b) with
  | none =>
    rw [List.foldl_argAux_eq_none] at hf
    exact absurd hf.2 (by simp)
  | some m => exact ⟨m, rfl⟩

theorem foldl_gridStep_some (w h mc mr : ℕ) :
    ∀ (l : List (ℕ × ℕ)) (b : ℕ × ℕ),
      ∃ m, (l.filter (gridSurvives w h)).foldl
            (List.argAux fun x y => gridScore w h mc mr x < gridScore w h mc mr y)
            (some b) = some m ∧
        l.foldl (gridStep w h mc mr) (b, some (gridScore w h mc mr b)) =
          (m, some (gridScore w h mc mr m)) := by
  intro l
  induction l with
  | nil => intro b; exact ⟨b, by simp, by simp⟩
  | cons c l ih =>
    intro b
    by_cases hs : gridSurvives w h c = true
    · by_cases h1 : gridScore w h mc mr c < gridScore w h mc mr b
      · obtain ⟨m, hm1, hm2⟩ := ih c
        exact ⟨m, by simpa [hs, List.argAux, h1] using hm1,
          by simpa [gridStep, hs, h1] using hm2⟩
      · obtain ⟨m, hm1, hm2⟩ := ih b
        exact ⟨m, by simpa [hs, List.argAux, h1] using hm1,
          by simpa [gridStep, hs, h1] using hm2⟩
    · obtain ⟨m, hm1, hm2⟩ := ih b
      exact ⟨m, by simpa [hs] using hm1, by simpa [gridStep, hs] using hm2⟩

theorem foldl_gridStep_none (w h mc mr : ℕ) :
    ∀ (l : List (ℕ × ℕ)) (p : ℕ × ℕ),
      l.foldl (gridStep w h mc mr) (p, none) =
        ((l.filter (gridSurvives w h)).argmin (gridScore w h mc mr)).elim (p, none)
          (fun m => (m, some (gridScore w h mc mr m))) := by
  intro l
  induction l with
  | nil => intro p; simp
  | cons c l ih =>
    intro p
    by_cases hs : gridSurvives w h c = true
    · obtain ⟨m, hm1, hm2⟩ := foldl_gridStep_some w h mc mr l c
      simp [gridStep, hs, List.argmin, List.argAux, hm1, hm2]
    · simpa [gridStep, hs] using ih p

theorem calculate_grid_eq_argmin (w h : ℕ) :
    calculate_grid w h =
      ((gridSurvivors w h).argmin
        (gridScore w h (max 1 (w / MIN_FRAGMENT_SIZE))
          (max 1 (h / MIN_FRAGMENT_SIZE)))).getD (1, 1) := by
  rw [calculate_grid, gridSurvivors]
  rw [if_neg (by simp)]
  rw [foldl_gridStep_none]
  cases harg : (((gridCandidates (max 1 (w / MIN_FRAGMENT_SIZE))
      (max 1 (h / MIN_FRAGMENT_SIZE))).filter (gridSurvives w h)).argmin
      (gridScore w h (max 1 (w / MIN_FRAGMENT_SIZE)) (max 1 (h / MIN_FRAGMENT_SIZE)))) with
  | none => simp
  | some m => simp

theorem mem_gridCandidates {mc mr : ℕ} {p : ℕ × ℕ} :
    p ∈ gridCandidates mc mr ↔ 1 ≤ p.1 ∧ p.1 ≤ mc ∧ 1 ≤ p.2 ∧ p.2 ≤ mr := by
  constructor
  · intro hp
    simp only [gridCandidates, List.mem_flatMap, List.mem_map, List.mem_range] at hp
    obtain ⟨i, hi, j, hj, rfl⟩ := hp
    omega
  · intro ⟨h1, h2, h3, h4⟩
    simp only [gridCandidates, List.mem_flatMap, List.mem_map, List.mem_range]
    exact ⟨p.1 - 1, by omega, p.2 - 1, by omega,
      by rw [Prod.ext_iff]; exact ⟨by simp; omega, by simp; omega⟩⟩

theorem gridSurvives_iff {w h : ℕ} {p : ℕ × ℕ} :
    gridSurvives w h p = true ↔
      (100 : ℚ) ≤ (w : ℚ) / (p.1 : ℚ) ∧ (100 : ℚ) ≤ (h : ℚ) / (p.2 : ℚ) := by
  simp [gridSurvives, MIN_FRAGMENT_SIZE, not_lt]

theorem mem_gridSurvivors {w h : ℕ} {p : ℕ × ℕ} :
    p ∈ gridSurvivors w h ↔
      (1 ≤ p.1 ∧ p.1 ≤ max 1 (w / MIN_FRAGMENT_SIZE) ∧
        1 ≤ p.2 ∧ p.2 ≤ max 1 (h / MIN_FRAGMENT_SIZE)) ∧
      (100 : ℚ) ≤ (w : ℚ) / (p.1 : ℚ) ∧ (100 : ℚ) ≤ (h : ℚ) / (p.2 : ℚ) := by
  rw [gridSurvivors, List.mem_filter, mem_gridCandidates, gridSurvives_iff]

theorem one_one_mem_gridSurvivors {w h : ℕ} (hw : 100 ≤ w) (hh : 100 ≤ h) :
    (1, 1) ∈ gridSurvivors w h := by
  rw [mem_gridSurvivors]
  refine ⟨⟨le_refl 1, le_max_left 1 _, le_refl 1, le_max_left 1 _⟩, ?_, ?_⟩
  · simpa using (by exact_mod_cast hw : (100 : ℚ) ≤ (w : ℚ))
  · simpa using (by exact_mod_cast hh : (100 : ℚ) ≤ (h : ℚ))

theorem calculate_grid_mem_or_default (w h : ℕ) :
    calculate_grid w h ∈ gridSurvivors w h ∨
      (gridSurvivors w h = [] ∧ calculate_grid w h = (1, 1)) := by
  rw [calculate_grid_eq_argmin]
  cases harg : (gridSurvivors w h).argmin
      (gridScore w h (max 1 (w / MIN_FRAGMENT_SIZE)) (max 1 (h / MIN_FRAGMENT_SIZE))) with
  | none =>
    right
    refine ⟨?_, by simp⟩
    cases hl : gridSurvivors w h with
    | nil => rfl
    | cons a t =>
      rw [hl] at harg
      exact absurd harg (by simp [List.argmin, List.argAux,
        List.foldl_argAux_eq_none])
  | some m => exact Or.inl (by simpa using List.argmin_mem harg)

theorem argmin_isSome_of_ne_nil {α β : Type*} [LinearOrder β] (f : α → β)
    {l : List α} (hl : l ≠ []) : ∃ m, l.argmin f = some m := by
  cases l with
  | nil => exact absurd rfl hl
  | cons a t =>
    obtain ⟨m, hm⟩ := argAux_from_some f t a
    exact ⟨m, by simpa [List.argmin, List.argAux] using hm⟩

/-- **C2**.  For sources at least `MIN_FRAGMENT_SIZE` in both dimensions,
`calculate_grid` returns a candidate of the ascending `(cols, rows)`
enumeration that passes the per-part minimum-size filter, whose score
`|partWidth/partHeight - 1| - (cols*rows)/(maxCols*maxRows) * 0.1` is
minimal among all surviving candidates, with ties broken by the earliest
surviving candidate in enumeration order; when no candidate survives the
fallback `(1, 1)` is returned; and the computation is deterministic. -/
theorem calculate_grid_selects_first_minimal_score (w h : ℕ)
    (hw : MIN_FRAGMENT_SIZE ≤ w) (hh : MIN_FRAGMENT_SIZE ≤ h) :
    calculate_grid w h ∈ gridSurvivors w h ∧
    (∀ c ∈ gridSurvivors w h,
      gridScore w h (max 1 (w / MIN_FRAGMENT_SIZE)) (max 1 (h / MIN_FRAGMENT_SIZE))
          (calculate_grid w h) ≤
        gridScore w h (max 1 (w / MIN_FRAGMENT_SIZE)) (max 1 (h / MIN_FRAGMENT_SIZE)) c) ∧
    (∀ c ∈ gridSurvivors w h,
      gridScore w h (max 1 (w / MIN_FRAGMENT_SIZE)) (max 1 (h / MIN_FRAGMENT_SIZE)) c =
        gridScore w h (max 1 (w / MIN_FRAGMENT_SIZE)) (max 1 (h / MIN_FRAGMENT_SIZE))
          (calculate_grid w h) →
      @List.indexOf (ℕ × ℕ) instBEqOfDecidableEq (calculate_grid w h) (gridSurvivors w h) ≤
        @List.indexOf (ℕ × ℕ) instBEqOfDecidableEq c (gridSurvivors w h)) ∧
    (∀ w' h', gridSurvivors w' h' = [] → calculate_grid w' h' = (1, 1)) ∧
    calculate_grid w h = calculate_grid w h := by
  have hne : gridSurvivors w h ≠ [] :=
    List.ne_nil_of_mem (one_one_mem_gridSurvivors hw hh)
  obtain ⟨m, harg⟩ := argmin_isSome_of_ne_nil
    (gridScore w h (max 1 (w / MIN_FRAGMENT_SIZE)) (max 1 (h / MIN_FRAGMENT_SIZE))) hne
  have hcg : calculate_grid w h = m := by
    rw [calculate_grid_eq_argmin, harg]; rfl
  rw [List.argmin_eq_some_iff] at harg
  refine ⟨hcg ▸ harg.1, ?_, ?_, ?_, rfl⟩
  · intro c hc
    rw [hcg]
    exact harg.2.1 c hc
  · intro c hc hscore
    rw [hcg]
    exact harg.2.2 c hc (le_of_eq (hcg ▸ hscore))
  · intro w' h' hemp
    rw [calculate_grid_eq_argmin, hemp]
    rfl

/-- Witness for C2 at the concrete input `(100, 100)`. -/
theorem calculate_grid_selects_first_minimal_score_witness :
    MIN_FRAGMENT_SIZE ≤ 100 ∧
    (calculate_grid 100 100 ∈ gridSurvivors 100 100 ∧
    (∀ c ∈ gridSurvivors 100 100,
      gridScore 100 100 (max 1 (100 / MIN_FRAGMENT_SIZE)) (max 1 (100 / MIN_FRAGMENT_SIZE))
          (calculate_grid 100 100) ≤
        gridScore 100 100 (max 1 (100 / MIN_FRAGMENT_SIZE))
          (max 1 (100 / MIN_FRAGMENT_SIZE)) c) ∧
    (∀ c ∈ gridSurvivors 100 100,
      gridScore 100 100 (max 1 (100 / MIN_FRAGMENT_SIZE))
          (max 1 (100 / MIN_FRAGMENT_SIZE)) c =
        gridScore 100 100 (max 1 (100 / MIN_FRAGMENT_SIZE))
          (max 1 (100 / MIN_FRAGMENT_SIZE)) (calculate_grid 100 100) →
      @List.indexOf (ℕ × ℕ) instBEqOfDecidableEq (calculate_grid 100 100)
          (gridSurvivors 100 100) ≤
        @List.indexOf (ℕ × ℕ) instBEqOfDecidableEq c (gridSurvivors 100 100)) ∧
    (∀ w' h', gridSurvivors w' h' = [] → calculate_grid w' h' = (1, 1)) ∧
    calculate_grid 100 100 = calculate_grid 100 100) :=
  ⟨by decide, calculate_grid_selects_first_minimal_score 100 100 (by decide) (by decide)⟩

/-- **C10**.  For sources at least `MIN_FRAGMENT_SIZE` in both dimensions,
the grid chosen by `calculate_grid` (including the `(1, 1)` fallback) keeps
every source-side part at least `100 × 100`: `w / cols ≥ 100` and
`h / rows ≥ 100`. -/
theorem calculate_grid_part_at_least_min (w h : ℕ)
    (hw : MIN_FRAGMENT_SIZE ≤ w) (hh : MIN_FRAGMENT_SIZE ≤ h) :
    1 ≤ (calculate_grid w h).1 ∧ 1 ≤ (calculate_grid w h).2 ∧
    (100 : ℚ) ≤ (w : ℚ) / ((calculate_grid w h).1 : ℚ) ∧
    (100 : ℚ) ≤ (h : ℚ) / ((calculate_grid w h).2 : ℚ) := by
  rcases calculate_grid_mem_or_default w h with hmem | ⟨hemp, _⟩
  · rw [mem_gridSurvivors] at hmem
    exact ⟨hmem.1.1, hmem.1.2.2.1, hmem.2.1, hmem.2.2⟩
  · exact absurd (hemp ▸ one_one_mem_gridSurvivors hw hh) (by simp)

/-- Witness for C10 at the concrete input `(100, 100)`. -/
theorem calculate_grid_part_at_least_min_witness :
    MIN_FRAGMENT_SIZE ≤ 100 ∧
    (1 ≤ (calculate_grid 100 100).1 ∧ 1 ≤ (calculate_grid 100 100).2 ∧
    (100 : ℚ) ≤ (100 : ℚ) / ((calculate_grid 100 100).1 : ℚ) ∧
    (100 : ℚ) ≤ (100 : ℚ) / ((calculate_grid 100 100).2 : ℚ)) :=
  ⟨by decide, by
    have := calculate_grid_part_at_least_min 100 100 (by decide) (by decide)
    simpa using this⟩

theorem gridSurvives_100 : gridSurvives 100 100 (1, 1) = true := by
  rw [gridSurvives_iff]
  norm_num

theorem gridSurvives_50 : gridSurvives 50 50 (1, 1) = false := by
  rw [Bool.eq_false_iff]
  intro hcontra
  rw [gridSurvives_iff] at hcontra
  norm_num at hcontra

theorem gridSurvivors_100 : gridSurvivors 100 100 = [(1, 1)] := by
  have hc : gridCandidates (max 1 (100 / MIN_FRAGMENT_SIZE))
      (max 1 (100 / MIN_FRAGMENT_SIZE)) = [(1, 1)] := by
    norm_num [gridCandidates, MIN_FRAGMENT_SIZE, List.range_succ]
  rw [gridSurvivors, hc, List.filter_cons, gridSurvives_100]
  simp

theorem gridSurvivors_50 : gridSurvivors 50 50 = [] := by
  have hc : gridCandidates (max 1 (50 / MIN_FRAGMENT_SIZE))
      (max 1 (50 / MIN_FRAGMENT_SIZE)) = [(1, 1)] := by
    norm_num [gridCandidates, MIN_FRAGMENT_SIZE, List.range_succ]
  rw [gridSurvivors, hc, List.filter_cons, gridSurvives_50]
  simp

theorem calculate_grid_100 : calculate_grid 100 100 = (1, 1) := by
  rw [calculate_grid_eq_argmin, gridSurvivors_100]
  simp

theorem calculate_grid_50 : calculate_grid 50 50 = (1, 1) := by
  rw [calculate_grid_eq_argmin, gridSurvivors_50]
  simp

/-- **C4 counterexample**.  The planning operation itself (`calculate_grid`,
with its division-by-zero sites made explicit) does **not** fail on a
`50 × 50` source: it returns the grid `(1, 1)` instead of raising. -/
theorem calculate_gridE_small_input_returns_grid :
    calculate_gridE 50 50 = Except.ok (1, 1) := by
  rw [calculate_gridE]
  rw [if_neg (by simp), if_neg (by norm_num), calculate_grid_50]

/-- **C4 amended**.  The minimum-size validation lives in the pipeline entry
`process_image`, not in grid planning: `process_image` fails exactly when
`width < MIN_FRAGMENT_SIZE` or `height < MIN_FRAGMENT_SIZE` (so a dimension
of exactly 100 is accepted and 99 is rejected), while `calculate_grid`
never fails on a source with nonzero height — for undersized inputs it
returns a grid (the `(1, 1)` fallback) rather than raising. -/
theorem process_image_validates_min_size (rz : Img → ℕ → ℕ → Img) (image : Img)
    (cols? rows? : Option ℕ) (hh : 1 ≤ image.h) :
    calculate_gridE image.w image.h = Except.ok (calculate_grid image.w image.h) ∧
    ((image.w < MIN_FRAGMENT_SIZE ∨ image.h < MIN_FRAGMENT_SIZE) ↔
      ∃ e, process_imageE rz image cols? rows? = Except.error e) := by
  refine ⟨?_, ?_, ?_⟩
  · rw [calculate_gridE]
    rw [if_neg (by simp), if_neg (by omega)]
  · intro hsmall
    refine ⟨"ValueError: image too small", ?_⟩
    unfold process_imageE
    rw [if_pos hsmall]
  · intro ⟨e, he⟩
    by_contra hbig
    unfold process_imageE at he
    rw [if_neg hbig] at he
    cases cols? <;> cases rows? <;> simp at he

/-- Witness for the amended C4 at a concrete accepted boundary input
(a 100 × 100 image) and at a concrete rejected input (99 wide). -/
theorem process_image_validates_min_size_witness :
    (1 ≤ halfAlphaImg.h ∧
      ((halfAlphaImg.w < MIN_FRAGMENT_SIZE ∨ halfAlphaImg.h < MIN_FRAGMENT_SIZE) ↔
        ∃ e, process_imageE nnResize halfAlphaImg none none = Except.error e)) ∧
    (1 ≤ solid50.h ∧
      ((solid50.w < MIN_FRAGMENT_SIZE ∨ solid50.h < MIN_FRAGMENT_SIZE) ↔
        ∃ e, process_imageE nnResize solid50 none none = Except.error e)) :=
  ⟨⟨by decide,
    (process_image_validates_min_size nnResize halfAlphaImg none none (by decide)).2⟩,
   ⟨by decide,
    (process_image_validates_min_size nnResize solid50 none none (by decide)).2⟩⟩

/-- **C5 counterexample**.  For the valid source `100 × 100`,
`calculate_grid` returns `(1, 1)`, whose total part count `1` lies outside
the claimed platform bounds `[4, 48]`. -/
theorem calculate_grid_total_below_four :
    calculate_grid 100 100 = (1, 1) ∧
    ¬(4 ≤ (calculate_grid 100 100).1 * (calculate_grid 100 100).2) := by
  refine ⟨calculate_grid_100, ?_⟩
  rw [calculate_grid_100]
  decide

/-- **C5 amended**.  The engine only guarantees `cols ≥ 1 ∧ rows ≥ 1`; the
`[4, 48]` total bound is not an engine invariant: `calculate_grid` can
return totals outside it, `process_image` accepts any caller-requested grid
without a total-count check, and the `4 ≤ cols*rows ≤ 48` filter exists
solely in the bot's keyboard builder, every grid offered by which satisfies
the bounds. -/
theorem grid_total_bounds_only_in_keyboard (w h : ℕ) (rz : Img → ℕ → ℕ → Img)
    (image : Img) (c r : ℕ)
    (hw : MIN_FRAGMENT_SIZE ≤ image.w) (hh : MIN_FRAGMENT_SIZE ≤ image.h) :
    (1 ≤ (calculate_grid w h).1 ∧ 1 ≤ (calculate_grid w h).2) ∧
    (∀ p ∈ build_grid_pairs w h, 4 ≤ p.1 * p.2 ∧ p.1 * p.2 ≤ 48) ∧
    (∃ out, process_imageE rz image (some c) (some r) = Except.ok out) := by
  refine ⟨?_, ?_, ?_⟩
  · rcases calculate_grid_mem_or_default w h with hmem | ⟨_, hdef⟩
    · rw [mem_gridSurvivors] at hmem
      exact ⟨hmem.1.1, hmem.1.2.2.1⟩
    · rw [hdef]
      exact ⟨le_refl 1, le_refl 1⟩
  · intro p hp
    have := List.of_mem_filter hp
    simp only [Bool.and_eq_true, decide_eq_true_eq] at this
    exact this
  · rw [process_imageE, if_neg (by omega)]
    exact ⟨_, rfl⟩

/-- Witness for the amended C5: a 100 × 100 source and the out-of-bounds
requested grid `100 × 1` (total 100 > 48), which the engine accepts. -/
theorem grid_total_bounds_only_in_keyboard_witness :
    MIN_FRAGMENT_SIZE ≤ halfAlphaImg.w ∧ MIN_FRAGMENT_SIZE ≤ halfAlphaImg.h ∧
    ((1 ≤ (calculate_grid 1000 600).1 ∧ 1 ≤ (calculate_grid 1000 600).2) ∧
    (∀ p ∈ build_grid_pairs 1000 600, 4 ≤ p.1 * p.2 ∧ p.1 * p.2 ≤ 48) ∧
    (∃ out, process_imageE nnResize halfAlphaImg (some 100) (some 1) = Except.ok out)) :=
  ⟨by decide, by decide,
    grid_total_bounds_only_in_keyboard 1000 600 nnResize halfAlphaImg 100 1
      (by decide) (by decide)⟩

/-! ### Canvas fitting: sizes, scale, and the blend arithmetic -/

theorem fit_image_to_grid_w (rz : Img → ℕ → ℕ → Img) (image : Img) (c r : ℕ) :
    (fit_image_to_grid rz image c r).w = c * EMOJI_SIZE := rfl

theorem fit_image_to_grid_h (rz : Img → ℕ → ℕ → Img) (image : Img) (c r : ℕ) :
    (fit_image_to_grid rz image c r).h = r * EMOJI_SIZE := rfl

theorem fit_to_grid_w (rz : Img → ℕ → ℕ → Img) (image : Img) (c r : ℕ) :
    (fit_to_grid rz image c r).w = c * EMOJI_SIZE := rfl

theorem fit_to_grid_h (rz : Img → ℕ → ℕ → Img) (image : Img) (c r : ℕ) :
    (fit_to_grid rz image c r).h = r * EMOJI_SIZE := rfl

theorem scaleQ_grid_sized (c r : ℕ) (hc : 1 ≤ c) (hr : 1 ≤ r) :
    scaleQ (c * EMOJI_SIZE) (r * EMOJI_SIZE) c r = 1 := by
  rw [scaleQ, div_self (by rw [EMOJI_SIZE]; positivity),
    div_self (by rw [EMOJI_SIZE]; positivity), min_self]

theorem muldiv255_zero : muldiv255 0 = 0 := rfl

set_option maxRecDepth 4096 in
theorem muldiv255_mul_255 : ∀ c < 256, muldiv255 (c * 255) = c := by decide

/-- Blending a fully opaque in-range source pixel over anything copies it. -/
theorem blendPx_opaque (d s : RGBA) (ha : s.a = 255)
    (hr : s.r ≤ 255) (hg : s.g ≤ 255) (hb : s.b ≤ 255) : blendPx d s = s := by
  have h255 : (255 : ℕ) - 255 = 0 := rfl
  cases s with
  | mk sr sg sb sa =>
    simp only at ha hr hg hb
    subst ha
    simp only [blendPx, blendChan, h255, Nat.mul_zero, muldiv255_zero,
      Nat.zero_add, RGBA.mk.injEq]
    exact ⟨muldiv255_mul_255 sr (by omega), muldiv255_mul_255 sg (by omega),
      muldiv255_mul_255 sb (by omega), muldiv255_mul_255 255 (by omega)⟩

/-- Blending a zero-alpha source pixel over a transparent destination
leaves full transparency. -/
theorem blendPx_transparent (s : RGBA) (ha : s.a = 0) : blendPx clear s = clear := by
  cases s with
  | mk sr sg sb sa =>
    simp only at ha
    subst ha
    simp [blendPx, blendChan, clear, muldiv255, Nat.mul_zero]

/-- On a canvas that is already grid-sized the static fit computes
`scale = 1`, skips the resize, and pastes at offset `(0, 0)`. -/
theorem fit_image_to_grid_grid_sized (rz : Img → ℕ → ℕ → Img) (image : Img)
    (c r : ℕ) (hc : 1 ≤ c) (hr : 1 ≤ r)
    (hw : image.w = c * EMOJI_SIZE) (hh : image.h = r * EMOJI_SIZE) :
    fit_image_to_grid rz image c r =
      Img.pasteMask (Img.new (c * EMOJI_SIZE) (r * EMOJI_SIZE)) image 0 0 := by
  have hs : scaleQ image.w image.h c r = 1 := by
    rw [hw, hh]; exact scaleQ_grid_sized c r hc hr
  unfold fit_image_to_grid
  dsimp only
  rw [hs, if_neg (by norm_num), if_neg (by norm_num), if_neg (by norm_num)]
  simp [hw, hh]

/-- On a canvas that is already grid-sized the animated fit computes
`scale = 1` and resizes to the unchanged size, pasting at offset `(0, 0)`. -/
theorem fit_to_grid_grid_sized (rz : Img → ℕ → ℕ → Img) (image : Img)
    (c r : ℕ) (hc : 1 ≤ c) (hr : 1 ≤ r)
    (hw : image.w = c * EMOJI_SIZE) (hh : image.h = r * EMOJI_SIZE) :
    fit_to_grid rz image c r =
      Img.pasteMask (Img.new (c * EMOJI_SIZE) (r * EMOJI_SIZE))
        (rz image image.w image.h) 0 0 := by
  have hs : scaleQ image.w image.h c r = 1 := by
    rw [hw, hh]; exact scaleQ_grid_sized c r hc hr
  have hnw : scaledW image.w image.h c r = image.w := by
    rw [scaledW, hs, mul_one, Int.floor_natCast, Int.toNat_natCast]
  have hnh : scaledH image.w image.h c r = image.h := by
    rw [scaledH, hs, mul_one, Int.floor_natCast, Int.toNat_natCast]
  unfold fit_to_grid
  dsimp only
  rw [hnw, hnh]
  simp [hw, hh]

theorem nnResize_sizes : ∀ (i : Img) (nw nh : ℕ),
    (nnResize i nw nh).w = nw ∧ (nnResize i nw nh).h = nh :=
  fun _ _ _ => ⟨rfl, rfl⟩

/-- Resizing to the unchanged size is the identity (PIL's `Image.resize`
returns a plain copy when the requested size equals the current size). -/
theorem nnResize_self (i : Img) : ImgEq (nnResize i i.w i.h) i := by
  refine ⟨rfl, rfl, ?_⟩
  intro x hx y hy
  have hx' : x < i.w := hx
  have hy' : y < i.h := hy
  show i.get (x * i.w / i.w) (y * i.h / i.h) = i.px x y
  rw [Nat.mul_div_cancel x (by omega), Nat.mul_div_cancel y (by omega),
    Img.get, if_pos ⟨hx', hy'⟩]

/-- **C8 counterexample**.  Refitting an already grid-sized canvas is not
pixel-exact in general: on a 100 × 100 canvas (grid 1 × 1) whose pixels are
half transparent (`alpha = 128`), the masked self-paste re-multiplies the
bands by the alpha, producing `(128, 0, 0, 64)` from `(255, 0, 0, 128)`. -/
theorem fit_not_idempotent_half_alpha :
    ¬ ImgEq (fit_image_to_grid nnResize halfAlphaImg 1 1) halfAlphaImg := by
  intro hEq
  have heval : (fit_image_to_grid nnResize halfAlphaImg 1 1).px 0 0 =
      ⟨128, 0, 0, 64⟩ := by
    rw [fit_image_to_grid_grid_sized nnResize halfAlphaImg 1 1 (le_refl 1)
      (le_refl 1) rfl rfl]
    rfl
  have hpx := hEq.2.2 0 (by decide) 0 (by decide)
  rw [heval] at hpx
  exact absurd hpx (by decide)

/-- **C8 amended**.  Canvas fitting is idempotent on grid-sized canvases
whose pixels have binary alpha: if every pixel is either exactly the
transparent pixel `(0,0,0,0)` or fully opaque with in-range bands, then
both fit paths compute `scale = 1`, shift by `(0, 0)`, and return a canvas
pixel-for-pixel identical to the input (the animated path in addition
relies on resize-to-same-size being a plain copy). -/
theorem fit_idempotent_on_binary_alpha (rz : Img → ℕ → ℕ → Img)
    (hrz : ∀ (i : Img) (nw nh : ℕ), (rz i nw nh).w = nw ∧ (rz i nw nh).h = nh)
    (hcopy : ∀ i : Img, ImgEq (rz i i.w i.h) i)
    (image : Img) (c r : ℕ) (hc : 1 ≤ c) (hr : 1 ≤ r)
    (hw : image.w = c * EMOJI_SIZE) (hh : image.h = r * EMOJI_SIZE)
    (hbin : ∀ x, x < image.w → ∀ y, y < image.h →
      image.px x y = clear ∨
      ((image.px x y).a = 255 ∧ (image.px x y).r ≤ 255 ∧
        (image.px x y).g ≤ 255 ∧ (image.px x y).b ≤ 255)) :
    ImgEq (fit_image_to_grid rz image c r) image ∧
    ImgEq (fit_to_grid rz image c r) image := by
  constructor
  · rw [fit_image_to_grid_grid_sized rz image c r hc hr hw hh]
    refine ⟨hw.symm, hh.symm, ?_⟩
    intro x hx y hy
    have hx' : x < image.w := by rw [hw]; exact hx
    have hy' : y < image.h := by rw [hh]; exact hy
    show (if 0 ≤ x ∧ x < 0 + image.w ∧ 0 ≤ y ∧ y < 0 + image.h then
        blendPx clear (image.px (x - 0) (y - 0)) else clear) = image.px x y
    rw [if_pos ⟨Nat.zero_le x, by omega, Nat.zero_le y, by omega⟩,
      Nat.sub_zero, Nat.sub_zero]
    rcases hbin x hx' y hy' with hclear | ⟨ha, hrb, hgb, hbb⟩
    · rw [hclear]
      exact blendPx_transparent clear rfl
    · exact blendPx_opaque clear (image.px x y) ha hrb hgb hbb
  · rw [fit_to_grid_grid_sized rz image c r hc hr hw hh]
    refine ⟨hw.symm, hh.symm, ?_⟩
    intro x hx y hy
    have hx' : x < image.w := by rw [hw]; exact hx
    have hy' : y < image.h := by rw [hh]; exact hy
    have hrw := (hrz image image.w image.h).1
    have hrh := (hrz image image.w image.h).2
    show (if 0 ≤ x ∧ x < 0 + (rz image image.w image.h).w ∧ 0 ≤ y ∧
          y < 0 + (rz image image.w image.h).h then
        blendPx clear ((rz image image.w image.h).px (x - 0) (y - 0))
      else clear) = image.px x y
    rw [if_pos ⟨Nat.zero_le x, by omega, Nat.zero_le y, by omega⟩,
      Nat.sub_zero, Nat.sub_zero]
    rw [(hcopy image).2.2 x (by omega) y (by omega)]
    rcases hbin x hx' y hy' with hclear | ⟨ha, hrb, hgb, hbb⟩
    · rw [hclear]
      exact blendPx_transparent clear rfl
    · exact blendPx_opaque clear (image.px x y) ha hrb hgb hbb

/-- Witness for the amended C8: the fully transparent 100 × 100 canvas on
the 1 × 1 grid, with the nearest-neighbour resizer. -/
theorem fit_idempotent_on_binary_alpha_witness :
    (∀ (i : Img) (nw nh : ℕ), (nnResize i nw nh).w = nw ∧ (nnResize i nw nh).h = nh) ∧
    (∀ i : Img, ImgEq (nnResize i i.w i.h) i) ∧
    ImgEq (fit_image_to_grid nnResize (Img.new 100 100) 1 1) (Img.new 100 100) ∧
    ImgEq (fit_to_grid nnResize (Img.new 100 100) 1 1) (Img.new 100 100) :=
  ⟨nnResize_sizes, nnResize_self,
    fit_idempotent_on_binary_alpha nnResize nnResize_sizes nnResize_self
      (Img.new 100 100) 1 1 (le_refl 1) (le_refl 1) rfl rfl
      (fun _ _ _ _ => Or.inl rfl)⟩

/-- **C3 counterexample**.  The animated fit path upscales: for a 50 × 50
frame on a 1 × 1 grid the scale is `2 ≥ 1`, yet `fit_to_grid` does not
paste the frame at its native resolution centred at offset `(25, 25)` — it
resizes it to 100 × 100 and pastes at `(0, 0)`, so the two canvases differ
already at pixel `(0, 0)`. -/
theorem fit_to_grid_upscales_small_frame :
    (1 : ℚ) ≤ scaleQ 50 50 1 1 ∧
    ¬ ImgEq (fit_to_grid nnResize solid50 1 1)
        (Img.pasteMask (Img.new 100 100) solid50 25 25) := by
  have hsc : scaleQ 50 50 1 1 = 2 := by norm_num [scaleQ, EMOJI_SIZE]
  constructor
  · rw [hsc]; norm_num
  · intro hEq
    have hcast : (((50 : ℕ) : ℚ) * 2) = ((100 : ℕ) : ℚ) := by norm_num
    have hnw : scaledW 50 50 1 1 = 100 := by
      rw [scaledW, hsc, hcast, Int.floor_natCast, Int.toNat_natCast]
    have hnh : scaledH 50 50 1 1 = 100 := by
      rw [scaledH, hsc, hcast, Int.floor_natCast, Int.toNat_natCast]
    have hL : fit_to_grid nnResize solid50 1 1 =
        Img.pasteMask (Img.new 100 100) (nnResize solid50 100 100) 0 0 := by
      unfold fit_to_grid
      dsimp only
      simp [solid50, hnw, hnh, EMOJI_SIZE]
    have hpx := hEq.2.2 0 (by decide) 0 (by decide)
    rw [hL] at hpx
    exact absurd hpx (by decide)

/-- **C3 amended**.  Both fit paths compute
`scale = min(cols·100/width, rows·100/height)` and paste centred onto a
freshly allocated fully transparent RGBA canvas of exactly
`(cols·100, rows·100)` pixels, and pixels not covered by source content of
positive alpha stay fully transparent.  The static path never upscales
(`scale ≥ 1` pastes the frame at native resolution with no resize), and
downscales to `(⌊w·scale⌋, ⌊h·scale⌋)` when `scale < 1`; the animated path
instead resizes unconditionally to `(⌊w·scale⌋, ⌊h·scale⌋)`, which
upscales whenever `scale > 1`. -/
theorem canvas_fit_centers_on_transparent_canvas (rz : Img → ℕ → ℕ → Img)
    (image : Img) (cols rows : ℕ) :
    ((fit_image_to_grid rz image cols rows).w = cols * EMOJI_SIZE ∧
     (fit_image_to_grid rz image cols rows).h = rows * EMOJI_SIZE ∧
     (fit_to_grid rz image cols rows).w = cols * EMOJI_SIZE ∧
     (fit_to_grid rz image cols rows).h = rows * EMOJI_SIZE) ∧
    (1 ≤ scaleQ image.w image.h cols rows →
      fit_image_to_grid rz image cols rows =
        Img.pasteMask (Img.new (cols * EMOJI_SIZE) (rows * EMOJI_SIZE)) image
          ((cols * EMOJI_SIZE - image.w) / 2) ((rows * EMOJI_SIZE - image.h) / 2)) ∧
    (scaleQ image.w image.h cols rows < 1 →
      fit_image_to_grid rz image cols rows =
        Img.pasteMask (Img.new (cols * EMOJI_SIZE) (rows * EMOJI_SIZE))
          (rz image (scaledW image.w image.h cols rows) (scaledH image.w image.h cols rows))
          ((cols * EMOJI_SIZE - scaledW image.w image.h cols rows) / 2)
          ((rows * EMOJI_SIZE - scaledH image.w image.h cols rows) / 2)) ∧
    (fit_to_grid rz image cols rows =
      Img.pasteMask (Img.new (cols * EMOJI_SIZE) (rows * EMOJI_SIZE))
        (rz image (scaledW image.w image.h cols rows) (scaledH image.w image.h cols rows))
        ((cols * EMOJI_SIZE - scaledW image.w image.h cols rows) / 2)
        ((rows * EMOJI_SIZE - scaledH image.w image.h cols rows) / 2)) ∧
    (∀ (s : Img) (x0 y0 x y : ℕ), x < cols * EMOJI_SIZE → y < rows * EMOJI_SIZE →
      (¬(x0 ≤ x ∧ x < x0 + s.w ∧ y0 ≤ y ∧ y < y0 + s.h) ∨
        (s.px (x - x0) (y - y0)).a = 0) →
      (Img.pasteMask (Img.new (cols * EMOJI_SIZE) (rows * EMOJI_SIZE)) s x0 y0).px x y =
        clear) := by
  refine ⟨⟨rfl, rfl, rfl, rfl⟩, ?_, ?_, ?_, ?_⟩
  · intro hs
    unfold fit_image_to_grid
    dsimp only
    rw [if_neg (not_lt.mpr hs), if_neg (not_lt.mpr hs), if_neg (not_lt.mpr hs)]
  · intro hs
    unfold fit_image_to_grid
    dsimp only
    rw [if_pos hs, if_pos hs, if_pos hs]
  · rfl
  · intro s x0 y0 x y _ _ hcase
    show (if x0 ≤ x ∧ x < x0 + s.w ∧ y0 ≤ y ∧ y < y0 + s.h then
        blendPx clear (s.px (x - x0) (y - y0)) else clear) = clear
    rcases hcase with hout | ha
    · rw [if_neg hout]
    · by_cases hin : x0 ≤ x ∧ x < x0 + s.w ∧ y0 ≤ y ∧ y < y0 + s.h
      · rw [if_pos hin]
        exact blendPx_transparent _ ha
      · rw [if_neg hin]

/-- Witness for the amended C3 at the concrete frame `solid50` on the
1 × 1 grid with the nearest-neighbour resizer. -/
theorem canvas_fit_centers_on_transparent_canvas_witness :
    ((fit_image_to_grid nnResize solid50 1 1).w = 1 * EMOJI_SIZE ∧
     (fit_image_to_grid nnResize solid50 1 1).h = 1 * EMOJI_SIZE ∧
     (fit_to_grid nnResize solid50 1 1).w = 1 * EMOJI_SIZE ∧
     (fit_to_grid nnResize solid50 1 1).h = 1 * EMOJI_SIZE) ∧
    (1 ≤ scaleQ solid50.w solid50.h 1 1 →
      fit_image_to_grid nnResize solid50 1 1 =
        Img.pasteMask (Img.new (1 * EMOJI_SIZE) (1 * EMOJI_SIZE)) solid50
          ((1 * EMOJI_SIZE - solid50.w) / 2) ((1 * EMOJI_SIZE - solid50.h) / 2)) ∧
    (scaleQ solid50.w solid50.h 1 1 < 1 →
      fit_image_to_grid nnResize solid50 1 1 =
        Img.pasteMask (Img.new (1 * EMOJI_SIZE) (1 * EMOJI_SIZE))
          (nnResize solid50 (scaledW solid50.w solid50.h 1 1)
            (scaledH solid50.w solid50.h 1 1))
          ((1 * EMOJI_SIZE - scaledW solid50.w solid50.h 1 1) / 2)
          ((1 * EMOJI_SIZE - scaledH solid50.w solid50.h 1 1) / 2)) ∧
    (fit_to_grid nnResize solid50 1 1 =
      Img.pasteMask (Img.new (1 * EMOJI_SIZE) (1 * EMOJI_SIZE))
        (nnResize solid50 (scaledW solid50.w solid50.h 1 1)
          (scaledH solid50.w solid50.h 1 1))
        ((1 * EMOJI_SIZE - scaledW solid50.w solid50.h 1 1) / 2)
        ((1 * EMOJI_SIZE - scaledH solid50.w solid50.h 1 1) / 2)) ∧
    (∀ (s : Img) (x0 y0 x y : ℕ), x < 1 * EMOJI_SIZE → y < 1 * EMOJI_SIZE →
      (¬(x0 ≤ x ∧ x < x0 + s.w ∧ y0 ≤ y ∧ y < y0 + s.h) ∨
        (s.px (x - x0) (y - y0)).a = 0) →
      (Img.pasteMask (Img.new (1 * EMOJI_SIZE) (1 * EMOJI_SIZE)) s x0 y0).px x y =
        clear) :=
  canvas_fit_centers_on_transparent_canvas nnResize solid50 1 1

/-! ### Tiling: row-major indexing, partition, and reconstruction -/

theorem row_major_lt {a b p q : ℕ} (ha : a < p) (hb : b < q) :
    a * q + b < p * q :=
  calc a * q + b < a * q + q := by omega
    _ = (a + 1) * q := by ring
    _ ≤ p * q := Nat.mul_le_mul_right q ha

theorem row_major_decomp {a b a' b' q : ℕ} (hb : b < q) (hb' : b' < q)
    (heq : a * q + b = a' * q + b') : a = a' ∧ b = b' := by
  have hq : 0 < q := by omega
  have h1 : (a * q + b) / q = a := by
    rw [Nat.add_comm, Nat.add_mul_div_right b a hq, Nat.div_eq_of_lt hb]
    omega
  have h2 : (a' * q + b') / q = a' := by
    rw [Nat.add_comm, Nat.add_mul_div_right b' a' hq, Nat.div_eq_of_lt hb']
    omega
  have haa : a = a' := by rw [← h1, heq, h2]
  refine ⟨haa, ?_⟩
  rw [haa] at heq
  omega

theorem crop_w (i : Img) (l t r b : ℕ) : (i.crop l t r b).w = r - l := rfl

theorem crop_h (i : Img) (l t r b : ℕ) : (i.crop l t r b).h = b - t := rfl

theorem crop_px (i : Img) (l t r b x y : ℕ) :
    (i.crop l t r b).px x y = i.get (l + x) (t + y) := rfl

theorem pastePlain_px (dst src : Img) (x0 y0 x y : ℕ) :
    (dst.pastePlain src x0 y0).px x y =
      if x0 ≤ x ∧ x < x0 + src.w ∧ y0 ≤ y ∧ y < y0 + src.h then
        src.px (x - x0) (y - y0)
      else dst.px x y := rfl

theorem flatMap_range_map_length {α : Type*} (f : ℕ → ℕ → α) (n m : ℕ) :
    (((List.range n).flatMap fun a => (List.range m).map (f a))).length = n * m := by
  rw [List.length_flatMap]
  have hmap : (List.range n).map (List.length ∘ fun a => (List.range m).map (f a)) =
      List.replicate n m := by
    rw [show (List.length ∘ fun a => (List.range m).map (f a)) = fun _ : ℕ => m from
      funext fun a => by simp]
    rw [List.map_const', List.length_range]
  rw [hmap, List.sum_replicate, smul_eq_mul]

theorem flatMap_range_map_getD {α : Type*} (f : ℕ → ℕ → α) (m : ℕ) :
    ∀ (n i j : ℕ) (d : α), i < n → j < m →
      (((List.range n).flatMap fun a => (List.range m).map (f a))).getD (i * m + j) d =
        f i j := by
  intro n
  induction n with
  | zero => intro i j d hi _; exact absurd hi (Nat.not_lt_zero i)
  | succ n ih =>
    intro i j d hi hj
    rw [List.range_succ, List.flatMap_append]
    by_cases hin : i < n
    · rw [List.getD_append _ _ _ _
        (by rw [flatMap_range_map_length]; exact row_major_lt hin hj)]
      exact ih i j d hin hj
    · have hieq : i = n := by omega
      subst hieq
      rw [List.getD_append_right _ _ _ _
        (by rw [flatMap_range_map_length]; exact Nat.le_add_right _ _)]
      rw [flatMap_range_map_length, Nat.add_sub_cancel_left]
      simp [List.getD_eq_getElem?_getD, List.getElem?_map, List.getElem?_range hj]

theorem split_length (image : Img) (cols rows : ℕ) :
    (split image cols rows).length = cols * rows := by
  rw [split, flatMap_range_map_length]
  exact Nat.mul_comm rows cols

theorem split_getD (image : Img) (cols rows r0 c0 : ℕ) (hr : r0 < rows)
    (hc : c0 < cols) (d : Img) :
    (split image cols rows).getD (r0 * cols + c0) d =
      image.crop (c0 * EMOJI_SIZE) (r0 * EMOJI_SIZE)
        (c0 * EMOJI_SIZE + EMOJI_SIZE) (r0 * EMOJI_SIZE + EMOJI_SIZE) := by
  rw [split]
  exact flatMap_range_map_getD _ cols rows r0 c0 d hr hc

theorem split_getD_lin (image : Img) (cols rows i : ℕ) (hcols : 0 < cols)
    (hi : i < rows * cols) (d : Img) :
    (split image cols rows).getD i d =
      image.crop ((i % cols) * EMOJI_SIZE) ((i / cols) * EMOJI_SIZE)
        ((i % cols) * EMOJI_SIZE + EMOJI_SIZE)
        ((i / cols) * EMOJI_SIZE + EMOJI_SIZE) := by
  have hidx : (i / cols) * cols + i % cols = i := by
    rw [Nat.mul_comm]
    exact Nat.div_add_mod i cols
  have hr : i / cols < rows := by
    rw [Nat.div_lt_iff_lt_mul hcols]
    exact hi
  have hc : i % cols < cols := Nat.mod_lt i hcols
  calc (split image cols rows).getD i d
      = (split image cols rows).getD ((i / cols) * cols + i % cols) d := by rw [hidx]
    _ = _ := split_getD image cols rows (i / cols) (i % cols) hr hc d

theorem tile_rects_partition (cols rows : ℕ) :
    ∀ x, x < cols * EMOJI_SIZE → ∀ y, y < rows * EMOJI_SIZE →
      ∃! p : ℕ × ℕ, p.1 < cols ∧ p.2 < rows ∧
        p.1 * EMOJI_SIZE ≤ x ∧ x < p.1 * EMOJI_SIZE + EMOJI_SIZE ∧
        p.2 * EMOJI_SIZE ≤ y ∧ y < p.2 * EMOJI_SIZE + EMOJI_SIZE := by
  intro x hx y hy
  simp only [EMOJI_SIZE] at *
  refine ⟨(x / 100, y / 100), ⟨by omega, by omega, by omega, by omega, by omega, by omega⟩, ?_⟩
  rintro ⟨a, b⟩ ⟨h1, h2, h3, h4, h5, h6⟩
  have ha : a = x / 100 := by omega
  have hb : b = y / 100 := by omega
  rw [Prod.ext_iff]
  exact ⟨ha, hb⟩

/-- **C9**.  For non-empty frames and positive grids, the planner, both
fitters and the tiler are total: the `Except`-refined versions (which make
every division-by-zero site of the Python explicit) return `ok`, and the
tiler returns its full tile list. -/
theorem planner_fitter_tiler_total (rz : Img → ℕ → ℕ → Img) (image : Img)
    (c r : ℕ) (hw : 1 ≤ image.w) (hh : 1 ≤ image.h) (hc : 1 ≤ c) (hr : 1 ≤ r) :
    calculate_gridE image.w image.h = Except.ok (calculate_grid image.w image.h) ∧
    fit_image_to_gridE rz image c r = Except.ok (fit_image_to_grid rz image c r) ∧
    fit_to_gridE rz image c r = Except.ok (fit_to_grid rz image c r) ∧
    (split image c r).length = c * r := by
  refine ⟨?_, ?_, ?_, split_length image c r⟩
  · rw [calculate_gridE]
    rw [if_neg (by simp), if_neg (by omega)]
  · rw [fit_image_to_gridE, if_neg (by omega)]
  · rw [fit_to_gridE, if_neg (by omega)]

/-- Witness for C9 at the concrete 1 × 1 opaque frame and the 1 × 1 grid. -/
theorem planner_fitter_tiler_total_witness :
    calculate_gridE onePix.w onePix.h = Except.ok (calculate_grid onePix.w onePix.h) ∧
    fit_image_to_gridE nnResize onePix 1 1 =
      Except.ok (fit_image_to_grid nnResize onePix 1 1) ∧
    fit_to_gridE nnResize onePix 1 1 = Except.ok (fit_to_grid nnResize onePix 1 1) ∧
    (split onePix 1 1).length = 1 * 1 :=
  planner_fitter_tiler_total nnResize onePix 1 1 (le_refl 1) (le_refl 1)
    (le_refl 1) (le_refl 1)

theorem foldl_pastePlain_dims (tiles : List Img) (cols : ℕ) :
    ∀ (l : List ℕ) (acc : Img),
      ((l.foldl (fun acc i => acc.pastePlain (tiles.getD i (Img.new 0 0))
          ((i % cols) * EMOJI_SIZE) ((i / cols) * EMOJI_SIZE)) acc).w = acc.w ∧
       (l.foldl (fun acc i => acc.pastePlain (tiles.getD i (Img.new 0 0))
          ((i % cols) * EMOJI_SIZE) ((i / cols) * EMOJI_SIZE)) acc).h = acc.h) := by
  intro l
  induction l with
  | nil => intro acc; exact ⟨rfl, rfl⟩
  | cons a l ih =>
    intro acc
    rw [List.foldl_cons]
    exact ih _

theorem reassemble_split_px (canvas : Img) (cols rows : ℕ)
    (hcw : canvas.w = cols * EMOJI_SIZE) (hch : canvas.h = rows * EMOJI_SIZE) :
    ∀ n, n ≤ rows * cols → ∀ x, x < cols * EMOJI_SIZE → ∀ y, y < rows * EMOJI_SIZE →
      ((List.range n).foldl (fun acc i => acc.pastePlain
          ((split canvas cols rows).getD i (Img.new 0 0))
          ((i % cols) * EMOJI_SIZE) ((i / cols) * EMOJI_SIZE))
        (Img.new (cols * EMOJI_SIZE) (rows * EMOJI_SIZE))).px x y =
      if (y / EMOJI_SIZE) * cols + x / EMOJI_SIZE < n then canvas.px x y
      else clear := by
  intro n
  induction n with
  | zero =>
    intro _ x _ y _
    rw [if_neg (Nat.not_lt_zero _)]
    rfl
  | succ n ih =>
    intro hn x hx y hy
    have hpos : 0 < rows * cols := by omega
    have hcols : 0 < cols := by
      rcases Nat.eq_zero_or_pos cols with h0 | h
      · rw [h0, Nat.mul_zero] at hpos; omega
      · exact h
    have hc0 : n % cols < cols := Nat.mod_lt n hcols
    have hr0 : n / cols < rows := by
      rw [Nat.div_lt_iff_lt_mul hcols]; omega
    have hidx : (n / cols) * cols + n % cols = n := by
      rw [Nat.mul_comm]; exact Nat.div_add_mod n cols
    rw [List.range_succ, List.foldl_append, List.foldl_cons, List.foldl_nil]
    rw [split_getD_lin canvas cols rows n hcols (by omega)]
    rw [pastePlain_px, crop_w, crop_h]
    set c0 := n % cols with hc0eq
    set r0 := n / cols with hr0eq
    simp only [EMOJI_SIZE] at *
    rw [show c0 * 100 + (c0 * 100 + 100 - c0 * 100) = c0 * 100 + 100 from by omega,
      show r0 * 100 + (r0 * 100 + 100 - r0 * 100) = r0 * 100 + 100 from by omega]
    have hxd : x / 100 < cols := by omega
    have hyd : y / 100 < rows := by omega
    by_cases hin : c0 * 100 ≤ x ∧ x < c0 * 100 + 100 ∧ r0 * 100 ≤ y ∧ y < r0 * 100 + 100
    · rw [if_pos hin, crop_px,
        show c0 * 100 + (x - c0 * 100) = x from by omega,
        show r0 * 100 + (y - r0 * 100) = y from by omega]
      have hxc : x / 100 = c0 := by omega
      have hyc : y / 100 = r0 := by omega
      rw [if_pos (by rw [hxc, hyc, hidx]; omega), Img.get,
        if_pos ⟨by omega, by omega⟩]
    · rw [if_neg hin, ih (by omega) x hx y hy]
      have hne : (y / 100) * cols + x / 100 ≠ n := by
        intro heq
        obtain ⟨hy2, hx2⟩ := row_major_decomp hxd hc0 (heq.trans hidx.symm)
        exact hin ⟨by omega, by omega, by omega, by omega⟩
      by_cases hI : (y / 100) * cols + x / 100 < n
      · rw [if_pos hI, if_pos (by omega)]
      · rw [if_neg hI, if_neg (by omega)]

theorem reassemble_split (canvas : Img) (cols rows : ℕ)
    (hcw : canvas.w = cols * EMOJI_SIZE) (hch : canvas.h = rows * EMOJI_SIZE) :
    ImgEq (reassemble (split canvas cols rows) cols rows) canvas := by
  have hdims := foldl_pastePlain_dims (split canvas cols rows) cols
    (List.range (rows * cols)) (Img.new (cols * EMOJI_SIZE) (rows * EMOJI_SIZE))
  refine ⟨?_, ?_, ?_⟩
  · rw [reassemble, hdims.1, hcw]; rfl
  · rw [reassemble, hdims.2, hch]; rfl
  · intro x hx y hy
    rw [reassemble] at hx hy ⊢
    rw [hdims.1] at hx
    rw [hdims.2] at hy
    have hx' : x < cols * EMOJI_SIZE := hx
    have hy' : y < rows * EMOJI_SIZE := hy
    rw [reassemble_split_px canvas cols rows hcw hch (rows * cols) le_rfl x hx' y hy']
    rw [if_pos]
    have hxd : x / EMOJI_SIZE < cols := by
      simp only [EMOJI_SIZE] at *; omega
    have hyd : y / EMOJI_SIZE < rows := by
      simp only [EMOJI_SIZE] at *; omega
    exact row_major_lt hyd hxd

/-- **C1**.  Splitting the fitted canvas (either fit path) yields exactly
`cols * rows` tiles in row-major order — the tile with linear index
`r * cols + c` is the `EMOJI_SIZE × EMOJI_SIZE` crop at
`[c*100, r*100, +100, +100)` and reads the canvas's pixels there; the tile
rectangles partition the canvas with no gap and no overlap; and pasting
the tiles back at their rectangles in linear index order reconstructs the
fitted canvas pixel-for-pixel. -/
theorem split_partitions_and_reconstructs (rz : Img → ℕ → ℕ → Img)
    (frame : Img) (cols rows : ℕ) (canvas : Img)
    (hfw : 1 ≤ frame.w) (hfh : 1 ≤ frame.h) (hc : 1 ≤ cols) (hr : 1 ≤ rows)
    (hcanvas : canvas = fit_image_to_grid rz frame cols rows ∨
      canvas = fit_to_grid rz frame cols rows) :
    (split canvas cols rows).length = cols * rows ∧
    (∀ r0 c0, r0 < rows → c0 < cols →
      ((split canvas cols rows).getD (r0 * cols + c0) (Img.new 0 0)).w = EMOJI_SIZE ∧
      ((split canvas cols rows).getD (r0 * cols + c0) (Img.new 0 0)).h = EMOJI_SIZE ∧
      (∀ x, x < EMOJI_SIZE → ∀ y, y < EMOJI_SIZE →
        ((split canvas cols rows).getD (r0 * cols + c0) (Img.new 0 0)).px x y =
          canvas.px (c0 * EMOJI_SIZE + x) (r0 * EMOJI_SIZE + y))) ∧
    (∀ x, x < cols * EMOJI_SIZE → ∀ y, y < rows * EMOJI_SIZE →
      ∃! p : ℕ × ℕ, p.1 < cols ∧ p.2 < rows ∧
        p.1 * EMOJI_SIZE ≤ x ∧ x < p.1 * EMOJI_SIZE + EMOJI_SIZE ∧
        p.2 * EMOJI_SIZE ≤ y ∧ y < p.2 * EMOJI_SIZE + EMOJI_SIZE) ∧
    ImgEq (reassemble (split canvas cols rows) cols rows) canvas := by
  have hcw : canvas.w = cols * EMOJI_SIZE := by
    rcases hcanvas with h | h <;> rw [h] <;> rfl
  have hch : canvas.h = rows * EMOJI_SIZE := by
    rcases hcanvas with h | h <;> rw [h] <;> rfl
  refine ⟨split_length canvas cols rows, ?_, tile_rects_partition cols rows,
    reassemble_split canvas cols rows hcw hch⟩
  intro r0 c0 hr0 hc0
  rw [split_getD canvas cols rows r0 c0 hr0 hc0]
  refine ⟨by rw [crop_w]; omega, by rw [crop_h]; omega, ?_⟩
  intro x hx y hy
  rw [crop_px, Img.get, if_pos]
  constructor
  · rw [hcw]
    exact row_major_lt hc0 hx
  · rw [hch]
    exact row_major_lt hr0 hy

/-- Witness for C1: the 1 × 1 opaque frame fitted (static path) to the
1 × 1 grid with the nearest-neighbour resizer. -/
theorem split_partitions_and_reconstructs_witness :
    (split (fit_image_to_grid nnResize onePix 1 1) 1 1).length = 1 * 1 ∧
    (∀ r0 c0, r0 < 1 → c0 < 1 →
      ((split (fit_image_to_grid nnResize onePix 1 1) 1 1).getD (r0 * 1 + c0)
          (Img.new 0 0)).w = EMOJI_SIZE ∧
      ((split (fit_image_to_grid nnResize onePix 1 1) 1 1).getD (r0 * 1 + c0)
          (Img.new 0 0)).h = EMOJI_SIZE ∧
      (∀ x, x < EMOJI_SIZE → ∀ y, y < EMOJI_SIZE →
        ((split (fit_image_to_grid nnResize onePix 1 1) 1 1).getD (r0 * 1 + c0)
            (Img.new 0 0)).px x y =
          (fit_image_to_grid nnResize onePix 1 1).px (c0 * EMOJI_SIZE + x)
            (r0 * EMOJI_SIZE + y))) ∧
    (∀ x, x < 1 * EMOJI_SIZE → ∀ y, y < 1 * EMOJI_SIZE →
      ∃! p : ℕ × ℕ, p.1 < 1 ∧ p.2 < 1 ∧
        p.1 * EMOJI_SIZE ≤ x ∧ x < p.1 * EMOJI_SIZE + EMOJI_SIZE ∧
        p.2 * EMOJI_SIZE ≤ y ∧ y < p.2 * EMOJI_SIZE + EMOJI_SIZE) ∧
    ImgEq (reassemble (split (fit_image_to_grid nnResize onePix 1 1) 1 1) 1 1)
      (fit_image_to_grid nnResize onePix 1 1) :=
  split_partitions_and_reconstructs nnResize onePix 1 1
    (fit_image_to_grid nnResize onePix 1 1) (le_refl 1) (le_refl 1)
    (le_refl 1) (le_refl 1) (Or.inl rfl)

/-! ### Animated pipeline: truncation, grouping, and scratch files -/

theorem process_animated_run_ok (rz : Img → ℕ → ℕ → Img) (frames : List Img)
    (cols rows : ℕ) (hne : frames ≠ []) :
    (process_animated_run rz frames cols rows).1 =
      Except.ok ((List.range (cols * rows)).map fun i =>
        tileGroup rz frames cols rows i) := by
  have hlen : ¬ frames.length = 0 := by simpa using hne
  unfold process_animated_run
  rw [if_neg hlen]
  dsimp only
  congr 1
  apply List.map_congr_left
  intro i _
  simp only [tileGroup, List.map_map, List.map_take]
  rfl

/-- **C6**.  The animated pipeline truncates the decoded frame sequence to
`MAX_FRAMES = 60` in original temporal order, produces exactly one tile
group (one encode input) per tile index in linear index order
`0 .. cols*rows - 1`, and the group for tile index `i` is the ordered list
of that tile across the kept frames — for a 90-frame source, exactly 60
frames are kept and every group has exactly 60 tiles. -/
theorem animated_truncates_and_groups (rz : Img → ℕ → ℕ → Img)
    (frames : List Img) (cols rows : ℕ) (hne : frames ≠ []) :
    ∃ groups, (process_animated_run rz frames cols rows).1 = Except.ok groups ∧
      groups.length = cols * rows ∧
      (∀ i, i < cols * rows → groups.getD i [] = tileGroup rz frames cols rows i) ∧
      (∀ i, i < cols * rows →
        (groups.getD i []).length = min MAX_FRAMES frames.length) ∧
      (frames.length = 90 → (frames.take MAX_FRAMES).length = 60) := by
  refine ⟨(List.range (cols * rows)).map fun i => tileGroup rz frames cols rows i,
    process_animated_run_ok rz frames cols rows hne, by simp, ?_, ?_, ?_⟩
  · intro i hi
    rw [List.getD_eq_getElem?_getD, List.getElem?_map, List.getElem?_range hi]
    rfl
  · intro i hi
    rw [List.getD_eq_getElem?_getD, List.getElem?_map, List.getElem?_range hi]
    simp [tileGroup]
  · intro h90
    rw [List.length_take, h90]
    rfl

/-- Witness for C6: 90 identical frames on a 2 × 2 grid. -/
theorem animated_truncates_and_groups_witness :
    ∃ groups, (process_animated_run nnResize (List.replicate 90 onePix) 2 2).1 =
        Except.ok groups ∧
      groups.length = 2 * 2 ∧
      (∀ i, i < 2 * 2 → groups.getD i [] =
        tileGroup nnResize (List.replicate 90 onePix) 2 2 i) ∧
      (∀ i, i < 2 * 2 → (groups.getD i []).length =
        min MAX_FRAMES (List.replicate 90 onePix).length) ∧
      ((List.replicate 90 onePix).length = 90 →
        ((List.replicate 90 onePix).take MAX_FRAMES).length = 60) :=
  animated_truncates_and_groups nnResize (List.replicate 90 onePix) 2 2 (by simp)

/-- **C7 counterexample**.  When decoding yields zero frames the pipeline
does raise, but scratch state is **not** removed: the scratch directory
`tmp` (and `tmp/frames`) created by the invocation is still present and
nothing is ever removed. -/
theorem animated_zero_frames_scratch_remains :
    (∃ e, (process_animated_run nnResize [] 2 2).1 = Except.error e) ∧
    ¬(∀ d ∈ (process_animated_run nnResize [] 2 2).2.dirs,
        d ∈ (process_animated_run nnResize [] 2 2).2.removed) := by
  constructor
  · exact ⟨_, rfl⟩
  · intro hall
    exact (List.not_mem_nil "tmp") (hall "tmp" (List.mem_cons_self _ _))

/-- **C7 amended**.  A zero-frame decode makes `process_animated` fail with
`ValueError` (the spec's `DecodeError`), but on every exit path — success
or failure — the per-invocation scratch directory remains on disk: the
source contains no removal call, so the set of removed paths is empty. -/
theorem animated_error_on_zero_frames_no_cleanup (rz : Img → ℕ → ℕ → Img)
    (frames : List Img) (cols rows : ℕ) :
    (frames = [] → (process_animated_run rz frames cols rows).1 =
      Except.error "ValueError: could not extract frames") ∧
    "tmp" ∈ (process_animated_run rz frames cols rows).2.dirs ∧
    (process_animated_run rz frames cols rows).2.removed = [] := by
  refine ⟨?_, ?_, ?_⟩
  · intro h
    subst h
    rfl
  · unfold process_animated_run
    by_cases h : frames.length = 0
    · rw [if_pos h]
      exact List.mem_cons_self _ _
    · rw [if_neg h]
      exact List.mem_cons_self _ _
  · unfold process_animated_run
    by_cases h : frames.length = 0
    · rw [if_pos h]
    · rw [if_neg h]

/-- Witness for the amended C7 at the zero-frame input. -/
theorem animated_error_on_zero_frames_no_cleanup_witness :
    (process_animated_run nnResize [] 2 2).1 =
      Except.error "ValueError: could not extract frames" ∧
    "tmp" ∈ (process_animated_run nnResize [] 2 2).2.dirs ∧
    (process_animated_run nnResize [] 2 2).2.removed = [] := by
  have h := animated_error_on_zero_frames_no_cleanup nnResize [] 2 2
  exact ⟨h.1 rfl, h.2.1, h.2.2⟩
